import Mathlib

/-!
Verification of the Logger dispatch pipeline of quale-util (src/logger.js).

The development shallowly embeds the level registry (getLevelNumber), the
dispatch routine log, the direct writers print and eprint, the default
pre-processing callable Defaults.prelog, the error renderer
Logger.formatError, and the construction-time stream check.  External
collaborators that are not part of src (the chalk style engine, HashProxy,
util/types.js, util/errors.js) are modelled from the specification where
noted; everything else is translated from src/logger.js.
-/

set_option maxHeartbeats 1000000

namespace QualeUtil

/-- JavaScript values supplied as log levels: strings, or numbers restricted
to integers.  Non-integer numbers, symbols and objects are outside the
modelled domain. -/
inductive JsValue
| str : String → JsValue
| num : Int → JsValue
deriving DecidableEq, Repr

/-- A JavaScript value as it can flow out of getLevelNumber: an integer, a
non-integer finite number, a signed infinity (true means negative), NaN, or
a non-numeric function or object read through the prototype chain of the
level map, tagged by its key.  Comparisons treat objVal like NaN, since
ToNumber of those inherited functions and objects is NaN. -/
inductive JsNum
| int : Int → JsNum
| frac : ℚ → JsNum
| inf : Bool → JsNum
| nan : JsNum
| objVal : String → JsNum
deriving DecidableEq, Repr

/-- The LevelNums object literal of logger.js lines 38-44: own enumerable
keys with their ordinals, in declaration order. -/
def levelNumsList : List (String × Int) :=
  [("error", 0), ("warn", 1), ("info", 2), ("log", 3), ("debug", 4)]

/-- LevelNames (logger.js lines 46-48): the keys of LevelNums sorted by
ordinal. -/
def levelNamesList : List String := ["error", "warn", "info", "log", "debug"]

/-- String-keyed properties inherited from Object.prototype, visible to the
in operator on every plain object and array in Node. -/
def objectProtoKeys : List String :=
  ["constructor", "hasOwnProperty", "isPrototypeOf", "propertyIsEnumerable",
   "toLocaleString", "toString", "valueOf",
   "__defineGetter__", "__defineSetter__", "__lookupGetter__", "__lookupSetter__",
   "__proto__"]

/-- String-keyed properties of Array.prototype itself (ES2023-level Node;
symbol-keyed members are not string keys and cannot collide with the string
or number inputs modelled here). -/
def arrayProtoKeys : List String :=
  ["length", "constructor", "at", "concat", "copyWithin", "entries", "every",
   "fill", "filter", "find", "findIndex", "findLast", "findLastIndex", "flat",
   "flatMap", "forEach", "includes", "indexOf", "join", "keys", "lastIndexOf",
   "map", "pop", "push", "reduce", "reduceRight", "reverse", "shift", "slice",
   "some", "sort", "splice", "toLocaleString", "toReversed", "toSorted",
   "toSpliced", "toString", "unshift", "values", "with"]

/-- String.prototype.toLowerCase over the character list (ASCII case
mapping; Unicode case pairs are outside the model). -/
def strLower (s : String) : String := String.mk (s.data.map Char.toLower)

/-- Whitespace trimming over the character list, as performed by the
JavaScript ToNumber conversion (ASCII whitespace). -/
def strTrim (s : String) : String :=
  String.mk (((s.data.dropWhile Char.isWhitespace).reverse.dropWhile Char.isWhitespace).reverse)

/-- Value of a digit list read in base 10. -/
def digitsVal (l : List Char) : Nat :=
  l.foldl (fun acc c => acc * 10 + (c.toNat - 48)) 0

/-- Parse a nonempty all-digit character list. -/
def decDigits : List Char → Option Nat
| [] => none
| l => if l.all Char.isDigit then some (digitsVal l) else none

/-- Lowercasing step of getLevelNumber (logger.js lines 305-307): string
values are lowercased, other values are unchanged. -/
def jsToLowerValue : JsValue → JsValue
| JsValue.str s => JsValue.str (strLower s)
| v => v

/-- The test (value in LevelNums) combined with the read LevelNums[value]
(logger.js lines 308-310).  The in operator sees the own string keys of the
object literal and the keys inherited from Object.prototype; at an inherited
key the read yields the inherited function or object, not an ordinal.  A
number never matches: its property key is its digit string. -/
def inLevelNumsObj : JsValue → Option JsNum
| JsValue.str s =>
  match levelNumsList.lookup s with
  | some k => some (JsNum.int k)
  | none => if objectProtoKeys.contains s then some (JsNum.objVal s) else none
| JsValue.num _ => none

/-- The test (value in LevelNames) on the five element array (logger.js line
311).  The in operator sees the own property keys of the array (the index
strings 0..4 and length) together with the keys inherited from
Array.prototype and Object.prototype; a number is such a key exactly when it
is an integer index 0..4. -/
def inLevelNamesArr : JsValue → Bool
| JsValue.str s =>
  ["0", "1", "2", "3", "4", "length"].contains s
    || arrayProtoKeys.contains s || objectProtoKeys.contains s
| JsValue.num n => decide (0 ≤ n ∧ n ≤ 4)

/-- Strip one optional sign character, reporting whether it was a minus. -/
def splitSign : List Char → Bool × List Char
| '-' :: rest => (true, rest)
| '+' :: rest => (false, rest)
| l => (false, l)

/-- Split a character list at the first character satisfying p, dropping the
separator; none when no character satisfies p. -/
def listSplitOnce (p : Char → Bool) : List Char → Option (List Char × List Char)
| [] => none
| c :: rest =>
  if p c then some ([], rest)
  else
    match listSplitOnce p rest with
    | some (a, b) => some (c :: a, b)
    | none => none

/-- Parse an optionally signed decimal exponent part. -/
def parseExp (l : List Char) : Option Int :=
  let sr := splitSign l
  match decDigits sr.snd with
  | some n => some (if sr.fst then -(n : Int) else (n : Int))
  | none => none

/-- Parse an unsigned decimal mantissa: digits, digits dot digits, digits
dot, or dot digits. -/
def parseMantissa (l : List Char) : Option ℚ :=
  match listSplitOnce (fun c => c = '.') l with
  | none => (decDigits l).map (fun n => (n : ℚ))
  | some (ip, fp) =>
    if ip.isEmpty && fp.isEmpty then none
    else
      match (if ip.isEmpty then some 0 else decDigits ip),
          (if fp.isEmpty then some 0 else decDigits fp) with
      | some a, some b => some ((a : ℚ) + (b : ℚ) / (10 : ℚ) ^ fp.length)
      | _, _ => none

/-- Parse an unsigned decimal literal with an optional exponent part. -/
def parseUnsignedDec (l : List Char) : Option ℚ :=
  match listSplitOnce (fun c => c = 'e' || c = 'E') l with
  | none => parseMantissa l
  | some (m, ex) =>
    match parseMantissa m, parseExp ex with
    | some q, some e => some (q * (10 : ℚ) ^ e)
    | _, _ => none

/-- Hexadecimal digit value of a character, when it is one. -/
def charHexVal (c : Char) : Option Nat :=
  if c.isDigit then some (c.toNat - 48)
  else if 'a' ≤ c && c ≤ 'f' then some (c.toNat - 87)
  else if 'A' ≤ c && c ≤ 'F' then some (c.toNat - 55)
  else none

/-- Parse a nonempty digit list in the given radix. -/
def parseRadixDigits (radix : Nat) (l : List Char) : Option Nat :=
  if l.isEmpty then none
  else
    l.foldl
      (fun acc c =>
        match acc, charHexVal c with
        | some a, some d => if d < radix then some (a * radix + d) else none
        | _, _ => none)
      (some 0)

/-- Classify a parsed rational as an integer or a non-integer number. -/
def ratToJsNum (q : ℚ) : JsNum :=
  if q.den = 1 then JsNum.int q.num else JsNum.frac q

/-- JavaScript ToNumber on strings (the StringNumericLiteral grammar):
whitespace is trimmed, the empty string converts to 0, signed decimal
literals with optional fraction and exponent, signed Infinity, and unsigned
hexadecimal, octal and binary prefixes are recognised, and everything else
converts to NaN.  Unicode-only whitespace and digit forms are outside the
model. -/
def strToJsNum (s : String) : JsNum :=
  match (strTrim s).data with
  | [] => JsNum.int 0
  | '0' :: 'x' :: rest =>
    match parseRadixDigits 16 rest with
    | some n => JsNum.int (n : Int)
    | none => JsNum.nan
  | '0' :: 'X' :: rest =>
    match parseRadixDigits 16 rest with
    | some n => JsNum.int (n : Int)
    | none => JsNum.nan
  | '0' :: 'o' :: rest =>
    match parseRadixDigits 8 rest with
    | some n => JsNum.int (n : Int)
    | none => JsNum.nan
  | '0' :: 'O' :: rest =>
    match parseRadixDigits 8 rest with
    | some n => JsNum.int (n : Int)
    | none => JsNum.nan
  | '0' :: 'b' :: rest =>
    match parseRadixDigits 2 rest with
    | some n => JsNum.int (n : Int)
    | none => JsNum.nan
  | '0' :: 'B' :: rest =>
    match parseRadixDigits 2 rest with
    | some n => JsNum.int (n : Int)
    | none => JsNum.nan
  | l =>
    let sr := splitSign l
    if sr.snd = ['I', 'n', 'f', 'i', 'n', 'i', 't', 'y'] then JsNum.inf sr.fst
    else
      match parseUnsignedDec sr.snd with
      | some q => ratToJsNum (if sr.fst then -q else q)
      | none => JsNum.nan

/-- The unary plus coercion of logger.js line 312. -/
def jsToNumber : JsValue → JsNum
| JsValue.num n => JsNum.int n
| JsValue.str s => strToJsNum s

/-- Whether a value is an integer or NaN. -/
def JsNum.isIntOrNan : JsNum → Bool
| JsNum.int _ => true
| JsNum.nan => true
| _ => false

/-- The comparison (value < 0) of logger.js line 314; NaN and non-numeric
values compare false, negative infinity compares true. -/
def jsLtZero (v : JsValue) : Bool :=
  match jsToNumber v with
  | JsNum.int n => decide (n < 0)
  | JsNum.frac q => decide (q < 0)
  | JsNum.inf neg => neg
  | _ => false

/-- Branch structure of getLevelNumber after the lowercasing reassignment
(logger.js lines 308-317). -/
def getLevelNumberCore (defaultLevel : Int) (value : JsValue) : JsNum :=
  match inLevelNumsObj value with
  | some r => r
  | none =>
    if inLevelNamesArr value then jsToNumber value
    else if jsLtZero value then JsNum.int (-1)
    else JsNum.int defaultLevel

/-- getLevelNumber (logger.js lines 304-318), with the process-wide default
level Defaults.logLevel passed explicitly as an ordinal. -/
def getLevelNumber (defaultLevel : Int) (value : JsValue) : JsNum :=
  getLevelNumberCore defaultLevel (jsToLowerValue value)

/-- Values stored in plain-object arguments. -/
inductive JVal
| vstr : String → JVal
| vbool : Bool → JVal
| vnum : Int → JVal
| vnull : JVal
deriving DecidableEq, Repr

/-- JavaScript truthiness of a JVal. -/
def JVal.truthy : JVal → Bool
| JVal.vstr s => decide (s ≠ "")
| JVal.vbool b => b
| JVal.vnum n => decide (n ≠ 0)
| JVal.vnull => false

/-- Error data as consumed by Logger.formatError.  Modelled from the spec:
parseStack of util/errors.js (not in src) splits an error into its raw
message and its stack-trace text; name is the display name of the error. -/
structure ErrInfo where
  name : String
  rawMessage : String
  stack : String
deriving DecidableEq, Repr

/-- Log-call arguments as classified by Defaults.prelog: strings, errors,
plain objects (lists of own entries), null, and anything else treated as
opaque.  Modelled from the spec: the type tests Is.String, Is.Error and
Is.PlainObject live in util/types.js (not in src).  Error values are
modelled without additional own properties, so only plain objects can carry
a throwing marker. -/
inductive Arg
| str : String → Arg
| err : ErrInfo → Arg
| obj : List (String × JVal) → Arg
| jsNull : Arg
| other : String → Arg
deriving DecidableEq, Repr

/-- The predicate (arg && arg.throwing) scanned by args.some in
Defaults.prelog (logger.js line 149). -/
def argThrowing : Arg → Bool
| Arg.obj es =>
  match es.lookup "throwing" with
  | some v => v.truthy
  | none => false
| _ => false

/-- Whether an argument is an Error value. -/
def Arg.isErr : Arg → Bool
| Arg.err _ => true
| _ => false

/-- A compiled style application: styler level slot text stands for the
compiled chalk function chalks[level][slot] applied to text.  Modelled from
the spec: HashProxy (not in src) lazily compiles the descriptor tree of
Defaults.styles into per-level, per-slot text transformers; the transformers
themselves are external black boxes, so they are a parameter here. -/
def Styler : Type := String → String → String → String

/-- The own style-slot names per level in Defaults.styles (logger.js lines
81-111); the test (key in chlk) of Defaults.prelog line 159 is modelled as
membership in this list. -/
def stylesSlots (level : String) : List String :=
  if level = "error" then ["prefix", "string", "file", "name", "message", "stack"]
  else if level = "warn" then ["prefix", "string", "file"]
  else if level = "info" then ["prefix", "string", "file"]
  else if level = "log" then ["prefix", "string", "file"]
  else if level = "debug" then ["prefix", "string"]
  else []

/-- Array.prototype.join with separator newline, as used by
lines.join of logger.js line 300. -/
def joinNl : List String → String
| [] => ""
| [a] => a
| a :: rest => a ++ "\n" ++ joinNl rest

/-- Logger.formatError (logger.js lines 289-301): the first line is the
styled name and the styled raw message joined by a colon; the styled stack
text is pushed as a second line unless isSkipStack holds. -/
def Logger.formatError (styler : Styler) (e : ErrInfo) (isSkipStack : Bool) : String :=
  let lines : List String :=
    [styler "error" "name" e.name ++ ": " ++ styler "error" "message" e.rawMessage]
  let lines := if isSkipStack then lines else lines ++ [styler "error" "stack" e.stack]
  joinNl lines

/-- Handling of a plain-object argument inside the map of Defaults.prelog
(logger.js lines 151-163): a single-entry object whose key is throwing is
replaced by null once an error was already rendered; a single-entry object
whose key names a style slot of the level and whose value is a string is
rewritten to a styled key-value fragment; everything else passes through. -/
def Defaults.objMap (styler : Styler) (level : String) (hasError : Bool)
    (es : List (String × JVal)) : Arg :=
  match es with
  | [(key, value)] =>
    if key = "throwing" ∧ hasError = true then Arg.jsNull
    else
      match value with
      | JVal.vstr vs =>
        if key ∈ stylesSlots level then
          Arg.str (styler level "string" (key ++ ": " ++ styler level key vs))
        else Arg.obj es
      | _ => Arg.obj es
  | _ => Arg.obj es

/-- The args.map body of Defaults.prelog (logger.js lines 143-165) with the
mutable hasError flag threaded left to right; args0 is the full original
argument list, which args.some scans for throwing markers at each error. -/
def Defaults.prelogGo (styler : Styler) (level : String) (args0 : List Arg) :
    Bool → List Arg → List Arg
| _, [] => []
| hasError, Arg.str s :: rest =>
  Arg.str (styler level "string" s) :: Defaults.prelogGo styler level args0 hasError rest
| _, Arg.err e :: rest =>
  Arg.str (Logger.formatError styler e (args0.any argThrowing)) ::
    Defaults.prelogGo styler level args0 true rest
| hasError, Arg.obj es :: rest =>
  Defaults.objMap styler level hasError es ::
    Defaults.prelogGo styler level args0 hasError rest
| hasError, Arg.jsNull :: rest =>
  Arg.jsNull :: Defaults.prelogGo styler level args0 hasError rest
| hasError, Arg.other t :: rest =>
  Arg.other t :: Defaults.prelogGo styler level args0 hasError rest

/-- Defaults.prelog (logger.js lines 140-166): map the arguments, then
filter out null results. -/
def Defaults.prelog (styler : Styler) (level : String) (args : List Arg) : List Arg :=
  (Defaults.prelogGo styler level args false args).filter
    (fun a => decide (a ≠ Arg.jsNull))

/-- Destination streams of a Logger. -/
inductive Dest
| primary
| errstream
deriving DecidableEq, Repr

/-- Observable effects of one dispatch: the ordered stream writes and how
often the pluggable prelog, prefix and format callables were invoked. -/
structure Effects where
  writes : List (Dest × String)
  prelogCalls : Nat
  pfxCalls : Nat
  formatCalls : Nat
deriving DecidableEq, Repr

/-- The empty effect: no write and no callable invocation. -/
def Effects.empty : Effects :=
  { writes := [], prelogCalls := 0, pfxCalls := 0, formatCalls := 0 }

/-- The opts.prefix option: a fixed value or a callable of the level name
(getOrCall, logger.js lines 326-328).  Results are already coerced to lists;
the coercion Cast.toArray lives in util/types.js (not in src) and is
modelled from the spec as wrapping a single value into a one-element list,
folded into these fields. -/
inductive PfxOpt
| fixed : List Arg → PfxOpt
| fn : (String → List Arg) → PfxOpt

/-- The merged Logger configuration fields the dispatch pipeline reads.
opts.prelog is none when not a function (the Is.Function test of line 195);
a callable prelog may return a replacement list or nothing (undefined), in
which case the argument list is kept (the in-place mutation convention of
lines 198-202 has no observable effect in this pure model).  opts.format is
the format callable; its default delegates to the external color-aware
format engine (util.formatWithOptions), which is a black box here. -/
structure LoggerCfg where
  defaultLevel : Int
  logLevel : JsValue
  prelogFn : Option (String → List Arg → Option (List Arg))
  pfxOpt : PfxOpt
  formatFn : List Arg → String

/-- The logLevel getter (logger.js lines 281-283): the stored option passes
through getLevelNumber on every read. -/
def loggerLogLevel (cfg : LoggerCfg) : JsNum :=
  getLevelNumber cfg.defaultLevel cfg.logLevel

/-- The logLevel setter (logger.js lines 285-287): the raw value is stored. -/
def loggerSetLogLevel (cfg : LoggerCfg) (n : JsValue) : LoggerCfg :=
  { cfg with logLevel := n }

/-- The gate comparison (level > this.logLevel) of logger.js line 189;
any comparison involving NaN or a non-numeric value is false. -/
def jsGt : JsNum → JsNum → Bool
| JsNum.int a, JsNum.int b => decide (a > b)
| JsNum.int a, JsNum.frac q => decide ((a : ℚ) > q)
| JsNum.frac p, JsNum.int b => decide (p > (b : ℚ))
| JsNum.frac p, JsNum.frac q => decide (p > q)
| JsNum.inf false, JsNum.int _ => true
| JsNum.inf false, JsNum.frac _ => true
| JsNum.inf false, JsNum.inf b => b
| JsNum.int _, JsNum.inf b => b
| JsNum.frac _, JsNum.inf b => b
| _, _ => false

/-- The method-selection comparison (level < 2) of logger.js line 192. -/
def jsLtTwo : JsNum → Bool
| JsNum.int a => decide (a < 2)
| JsNum.frac q => decide (q < 2)
| JsNum.inf neg => neg
| _ => false

/-- The read LevelNames[level] of logger.js line 193; the string undefined
stands for the JavaScript undefined produced by an out-of-range index. -/
def levelNameOf : JsNum → String
| JsNum.int n => if n < 0 then "undefined" else levelNamesList.getD n.toNat "undefined"
| _ => "undefined"

/-- The admitted tail of the dispatch routine (logger.js lines 192-210):
choose the destination, run the prelog callable when configured, compute the
prefix list via getOrCall, format prefix and body, and issue the writes. -/
def Logger.logAdmitted (cfg : LoggerCfg) (lvl : JsNum) (args : List Arg) : Effects :=
  let dest : Dest := if jsLtTwo lvl then Dest.errstream else Dest.primary
  let levelName : String := levelNameOf lvl
  let prelogRes : List Arg × Nat :=
    match cfg.prelogFn with
    | none => (args, 0)
    | some f =>
      match f levelName args with
      | none => (args, 1)
      | some res => (res, 1)
  let pfxRes : List Arg × Nat :=
    match cfg.pfxOpt with
    | PfxOpt.fixed val => (val, 0)
    | PfxOpt.fn f => (f levelName, 1)
  let pfxStr : Option String :=
    if pfxRes.fst.isEmpty then none else some (cfg.formatFn pfxRes.fst)
  let body : String :=
    if prelogRes.fst.isEmpty then "" else cfg.formatFn prelogRes.fst
  let headWrites : List (Dest × String) :=
    match pfxStr with
    | none => []
    | some p => if p = "" then [] else [(dest, p ++ (if body = "" then "" else " "))]
  { writes := headWrites ++ [(dest, body ++ "\n")]
    prelogCalls := prelogRes.snd
    pfxCalls := pfxRes.snd
    formatCalls :=
      (if pfxRes.fst.isEmpty then 0 else 1) + (if prelogRes.fst.isEmpty then 0 else 1) }

/-- The dispatch routine log (logger.js lines 187-211): resolve the level,
return with no effect when it exceeds the threshold, otherwise run the
admitted tail. -/
def Logger.log (cfg : LoggerCfg) (level : JsValue) (args : List Arg) : Effects :=
  let lvl := getLevelNumber cfg.defaultLevel level
  if jsGt lvl (loggerLogLevel cfg) then Effects.empty
  else Logger.logAdmitted cfg lvl args

/-- Logger.write (logger.js lines 245-247): one write to the primary stream. -/
def Logger.write (data : String) : Effects :=
  { writes := [(Dest.primary, data)], prelogCalls := 0, pfxCalls := 0, formatCalls := 0 }

/-- Logger.ewrite (logger.js lines 249-251): one write to the error stream. -/
def Logger.ewrite (data : String) : Effects :=
  { writes := [(Dest.errstream, data)], prelogCalls := 0, pfxCalls := 0, formatCalls := 0 }

/-- Record one invocation of the format callable. -/
def Effects.withFormatCall (e : Effects) : Effects :=
  { e with formatCalls := e.formatCalls + 1 }

/-- Logger.print (logger.js lines 253-255): format the arguments through the
format callable and write the result plus one newline to the primary stream. -/
def Logger.print (cfg : LoggerCfg) (args : List Arg) : Effects :=
  (Logger.write (cfg.formatFn args ++ "\n")).withFormatCall

/-- Logger.eprint (logger.js lines 257-259): the same to the error stream. -/
def Logger.eprint (cfg : LoggerCfg) (args : List Arg) : Effects :=
  (Logger.ewrite (cfg.formatFn args ++ "\n")).withFormatCall

/-- A stream option as seen by the construction-time check.  Modelled from
the spec: Is.WriteableStream of util/types.js (not in src) decides whether a
configured sink is writable. -/
structure StreamOpt where
  writable : Bool
deriving DecidableEq, Repr

/-- The error kind raised by the core.  Modelled from the spec: ArgumentError
is declared in errors.js (not in src). -/
inductive LoggerError
| argumentError : String → LoggerError
deriving DecidableEq, Repr

/-- checkWriteStream (logger.js lines 320-324): raise an ArgumentError naming
the offending option when the argument is not a writable stream. -/
def checkWriteStream (arg : StreamOpt) (name : String) : Except LoggerError Unit :=
  if !arg.writable then
    Except.error (LoggerError.argumentError ("Argument " ++ name ++ " is not a writeable stream"))
  else Except.ok ()

/-- The failure behaviour of the Logger constructor (logger.js lines
215-218): after merging the options, opts.stdout and then opts.stderr are
checked.  All later construction steps and every other modelled operation
are total, so this is the only failure point of the core. -/
def Logger.construct (stdoutOpt stderrOpt : StreamOpt) : Except LoggerError Unit := do
  checkWriteStream stdoutOpt "opts.stdout"
  checkWriteStream stderrOpt "opts.stderr"

/-! Helper lemmas shared by the claim theorems. -/

/-- Resolving an integer ordinal in range hits the array-index branch and is
the identity. -/
lemma getLevelNumber_ord (d n : Int) (h0 : 0 ≤ n) (h4 : n ≤ 4) :
    getLevelNumber d (JsValue.num n) = JsNum.int n := by
  have hb : inLevelNamesArr (JsValue.num n) = true := by
    simp [inLevelNamesArr]
    exact ⟨h0, h4⟩
  simp [getLevelNumber, getLevelNumberCore, jsToLowerValue, inLevelNumsObj, hb, jsToNumber]

/-- Enumeration of membership in the level map. -/
lemma mem_levelNums_cases {name : String} {k : Int} (h : (name, k) ∈ levelNumsList) :
    (name = "error" ∧ k = 0) ∨ (name = "warn" ∧ k = 1) ∨ (name = "info" ∧ k = 2) ∨
      (name = "log" ∧ k = 3) ∨ (name = "debug" ∧ k = 4) := by
  simp [levelNumsList] at h
  tauto

/-- Every property key of the level-name array coerces under unary plus to
an integer (the index strings) or to NaN (length and the prototype member
names), so the fractional and infinite numbers representable in JsNum never
flow out of the array-index branch of getLevelNumber. -/
lemma index_keys_int_or_nan :
    ((["0", "1", "2", "3", "4", "length"] ++ arrayProtoKeys ++ objectProtoKeys).all
      fun s => (strToJsNum s).isIntOrNan) = true := by decide

/-- A non-null member of the mapped list survives the null filter of
Defaults.prelog. -/
lemma mem_filter_keep {a : Arg} {l : List Arg} (hm : a ∈ l) (hne : a ≠ Arg.jsNull) :
    a ∈ l.filter (fun a => decide (a ≠ Arg.jsNull)) :=
  List.mem_filter.mpr ⟨hm, by simpa using hne⟩

/-- The image of an Error argument under the map of Defaults.prelog is a
member of the mapped list, rendered with the throwing scan over the full
original list, whatever the hasError flag is when the error is reached. -/
lemma mem_prelogGo_err (styler : Styler) (level : String) (args0 : List Arg)
    (e : ErrInfo) :
    ∀ (h : Bool) (pre post : List Arg),
      Arg.str (Logger.formatError styler e (args0.any argThrowing))
        ∈ Defaults.prelogGo styler level args0 h (pre ++ Arg.err e :: post) := by
  intro h pre
  induction pre generalizing h with
  | nil =>
    intro post
    simp [Defaults.prelogGo]
  | cons a tl ih =>
    intro post
    cases a with
    | str s =>
      simp only [List.cons_append, Defaults.prelogGo]
      exact List.mem_cons_of_mem _ (ih h post)
    | err e2 =>
      simp only [List.cons_append, Defaults.prelogGo]
      exact List.mem_cons_of_mem _ (ih true post)
    | obj es =>
      simp only [List.cons_append, Defaults.prelogGo]
      exact List.mem_cons_of_mem _ (ih h post)
    | jsNull =>
      simp only [List.cons_append, Defaults.prelogGo]
      exact List.mem_cons_of_mem _ (ih h post)
    | other t =>
      simp only [List.cons_append, Defaults.prelogGo]
      exact List.mem_cons_of_mem _ (ih h post)

/-! Claim theorems. -/

/-- Claim C7: level resolution is case-insensitive on names (any string that
lowercases to a registered name resolves to that name's ordinal, for every
default), and resolution is the identity on integer ordinals 0 to 4. -/
theorem c7 :
    (∀ (d : Int) (s name : String) (k : Int), (name, k) ∈ levelNumsList →
        strLower s = name → getLevelNumber d (JsValue.str s) = JsNum.int k)
    ∧ (∀ (d n : Int), 0 ≤ n → n ≤ 4 → getLevelNumber d (JsValue.num n) = JsNum.int n) := by
  constructor
  · intro d s name k hmem hlow
    rcases mem_levelNums_cases hmem with ⟨h1, h2⟩ | ⟨h1, h2⟩ | ⟨h1, h2⟩ | ⟨h1, h2⟩ | ⟨h1, h2⟩ <;>
      subst h1 <;> subst h2 <;>
      simp only [getLevelNumber, jsToLowerValue] <;> rw [hlow] <;> rfl
  · intro d n h0 h4
    exact getLevelNumber_ord d n h0 h4

/-- Witness for c7 at the mixed-case name ERROR and the ordinal 3. -/
theorem c7_witness :
    (("error", (0 : Int)) ∈ levelNumsList ∧ strLower "ERROR" = "error"
      ∧ getLevelNumber 2 (JsValue.str "ERROR") = JsNum.int 0)
    ∧ ((0 : Int) ≤ 3 ∧ (3 : Int) ≤ 4 ∧ getLevelNumber 2 (JsValue.num 3) = JsNum.int 3) :=
  ⟨⟨by decide, by decide, c7.1 2 "ERROR" "error" 0 (by decide) (by decide)⟩,
    ⟨by decide, by decide, c7.2 2 3 (by decide) (by decide)⟩⟩

/-- Claim C8: a numeric string denoting an integer 0 to 4 is not found by
the name lookup, is accepted by the array-index test on the name list, and
is coerced to its number, for every configured default. -/
theorem c8 (d : Int) (n : Nat) (h : n ≤ 4) :
    levelNumsList.lookup (toString n) = none
    ∧ inLevelNamesArr (JsValue.str (toString n)) = true
    ∧ getLevelNumber d (JsValue.str (toString n)) = JsNum.int (n : Int) := by
  interval_cases n <;> exact ⟨rfl, rfl, rfl⟩

/-- Witness for c8 at the numeric string 3 with default 0. -/
theorem c8_witness :
    (3 : Nat) ≤ 4
    ∧ (levelNumsList.lookup (toString (3 : Nat)) = none
      ∧ inLevelNamesArr (JsValue.str (toString (3 : Nat))) = true
      ∧ getLevelNumber 0 (JsValue.str (toString (3 : Nat))) = JsNum.int ((3 : Nat) : Int)) :=
  ⟨by decide, c8 0 3 (by decide)⟩

/-- Claim C1: for a level-method call at ordinal L with resolved threshold
T, a stream write happens exactly when L is at most T; a gated call has no
observable effect at all (no write, no prelog, prefix or format
invocation); and with threshold -1 every level 0 to 4 is silenced. -/
theorem c1 (cfg : LoggerCfg) (L T : Int) (h0 : 0 ≤ L) (h4 : L ≤ 4)
    (hT : loggerLogLevel cfg = JsNum.int T) (args : List Arg) :
    ((Logger.log cfg (JsValue.num L) args).writes ≠ [] ↔ L ≤ T)
    ∧ (L > T → Logger.log cfg (JsValue.num L) args = Effects.empty)
    ∧ (T = -1 → Logger.log cfg (JsValue.num L) args = Effects.empty) := by
  have hres := getLevelNumber_ord cfg.defaultLevel L h0 h4
  by_cases hgt : L > T
  · have hgate : jsGt (getLevelNumber cfg.defaultLevel (JsValue.num L)) (loggerLogLevel cfg)
        = true := by
      rw [hres, hT]
      simp [jsGt]
      omega
    have hlog : Logger.log cfg (JsValue.num L) args = Effects.empty := by
      simp [Logger.log, hgate]
    refine ⟨?_, fun _ => hlog, fun _ => hlog⟩
    rw [hlog]
    simp [Effects.empty]
    omega
  · have hgate : jsGt (getLevelNumber cfg.defaultLevel (JsValue.num L)) (loggerLogLevel cfg)
        = false := by
      rw [hres, hT]
      simp [jsGt]
      omega
    have hlog : Logger.log cfg (JsValue.num L) args
        = Logger.logAdmitted cfg (JsNum.int L) args := by
      rw [Logger.log, hgate]
      rw [hres]
      simp
    refine ⟨?_, fun hc => absurd hc hgt, fun hTm => absurd (by omega : L > T) hgt⟩
    rw [hlog]
    constructor
    · intro _
      omega
    · intro _
      simp [Logger.logAdmitted]

/-- Witness for c1: with threshold -1 a debug-level call (ordinal 3) is
silenced entirely. -/
theorem c1_witness :
    (0 : Int) ≤ 3 ∧ (3 : Int) ≤ 4
    ∧ loggerLogLevel
        { defaultLevel := 2, logLevel := JsValue.num (-1), prelogFn := none,
          pfxOpt := PfxOpt.fixed [], formatFn := fun _ => "" } = JsNum.int (-1)
    ∧ (((Logger.log
          { defaultLevel := 2, logLevel := JsValue.num (-1), prelogFn := none,
            pfxOpt := PfxOpt.fixed [], formatFn := fun _ => "" }
          (JsValue.num 3) []).writes ≠ [] ↔ (3 : Int) ≤ -1)
      ∧ ((3 : Int) > -1 → Logger.log
          { defaultLevel := 2, logLevel := JsValue.num (-1), prelogFn := none,
            pfxOpt := PfxOpt.fixed [], formatFn := fun _ => "" }
          (JsValue.num 3) [] = Effects.empty)
      ∧ ((-1 : Int) = -1 → Logger.log
          { defaultLevel := 2, logLevel := JsValue.num (-1), prelogFn := none,
            pfxOpt := PfxOpt.fixed [], formatFn := fun _ => "" }
          (JsValue.num 3) [] = Effects.empty)) :=
  ⟨by decide, by decide, rfl,
    c1 { defaultLevel := 2, logLevel := JsValue.num (-1), prelogFn := none,
         pfxOpt := PfxOpt.fixed [], formatFn := fun _ => "" }
      3 (-1) (by decide) (by decide) rfl []⟩

/-- Claim C6: an admitted call at ordinal L writes only to the stream chosen
by the resolved ordinal: the error stream for ordinals below 2, the primary
stream for ordinals 2 to 4, whatever the configuration and arguments. -/
theorem c6 (cfg : LoggerCfg) (L : Int) (args : List Arg) (h0 : 0 ≤ L) (h4 : L ≤ 4)
    (hgate : jsGt (JsNum.int L) (loggerLogLevel cfg) = false) :
    ((Logger.log cfg (JsValue.num L) args).writes.all
      (fun w => decide (w.fst = if L < 2 then Dest.errstream else Dest.primary))) = true := by
  have hres := getLevelNumber_ord cfg.defaultLevel L h0 h4
  have hlog : Logger.log cfg (JsValue.num L) args
      = Logger.logAdmitted cfg (JsNum.int L) args := by
    rw [Logger.log, hres, hgate]
    simp
  rw [hlog]
  simp only [Logger.logAdmitted, jsLtTwo, List.all_append]
  rcases hpo : cfg.pfxOpt with val | f <;>
    simp only [hpo] <;>
    split <;>
    simp

/-- Witness for c6: an admitted warn call (ordinal 1) under threshold debug
writes only to the error stream. -/
theorem c6_witness :
    (0 : Int) ≤ 1 ∧ (1 : Int) ≤ 4
    ∧ jsGt (JsNum.int 1)
        (loggerLogLevel
          { defaultLevel := 2, logLevel := JsValue.str "debug", prelogFn := none,
            pfxOpt := PfxOpt.fixed [Arg.str "P"], formatFn := fun _ => "m" }) = false
    ∧ ((Logger.log
          { defaultLevel := 2, logLevel := JsValue.str "debug", prelogFn := none,
            pfxOpt := PfxOpt.fixed [Arg.str "P"], formatFn := fun _ => "m" }
          (JsValue.num 1) [Arg.str "x"]).writes.all
        (fun w => decide (w.fst = if (1 : Int) < 2 then Dest.errstream else Dest.primary))) = true :=
  ⟨by decide, by decide, rfl,
    c6 { defaultLevel := 2, logLevel := JsValue.str "debug", prelogFn := none,
         pfxOpt := PfxOpt.fixed [Arg.str "P"], formatFn := fun _ => "m" }
      1 [Arg.str "x"] (by decide) (by decide) rfl⟩

/-- Claim C9: storing a level name in logLevel is observably equivalent to
storing its ordinal: the getter resolves both to the same ordinal and every
subsequent dispatch behaves identically. -/
theorem c9 (d : Int) (pl : Option (String → List Arg → Option (List Arg)))
    (pfxo : PfxOpt) (fmt : List Arg → String) (name : String) (ord : Int)
    (h : (name, ord) ∈ levelNumsList) :
    loggerLogLevel (loggerSetLogLevel ⟨d, JsValue.num 9, pl, pfxo, fmt⟩ (JsValue.str name))
        = JsNum.int ord
    ∧ loggerLogLevel (loggerSetLogLevel ⟨d, JsValue.num 9, pl, pfxo, fmt⟩ (JsValue.num ord))
        = JsNum.int ord
    ∧ ∀ (level : JsValue) (args : List Arg),
        Logger.log (loggerSetLogLevel ⟨d, JsValue.num 9, pl, pfxo, fmt⟩ (JsValue.str name)) level args
          = Logger.log (loggerSetLogLevel ⟨d, JsValue.num 9, pl, pfxo, fmt⟩ (JsValue.num ord)) level args := by
  rcases mem_levelNums_cases h with ⟨h1, h2⟩ | ⟨h1, h2⟩ | ⟨h1, h2⟩ | ⟨h1, h2⟩ | ⟨h1, h2⟩ <;>
    subst h1 <;> subst h2 <;>
    exact ⟨rfl, rfl, fun level args => rfl⟩

/-- Witness for c9 at the name warn and ordinal 1, observed on an info call. -/
theorem c9_witness :
    (("warn", (1 : Int)) ∈ levelNumsList)
    ∧ loggerLogLevel (loggerSetLogLevel ⟨2, JsValue.num 9, none, PfxOpt.fixed [], fun _ => ""⟩
        (JsValue.str "warn")) = JsNum.int 1
    ∧ loggerLogLevel (loggerSetLogLevel ⟨2, JsValue.num 9, none, PfxOpt.fixed [], fun _ => ""⟩
        (JsValue.num 1)) = JsNum.int 1
    ∧ Logger.log (loggerSetLogLevel ⟨2, JsValue.num 9, none, PfxOpt.fixed [], fun _ => ""⟩
        (JsValue.str "warn")) (JsValue.num 2) []
      = Logger.log (loggerSetLogLevel ⟨2, JsValue.num 9, none, PfxOpt.fixed [], fun _ => ""⟩
        (JsValue.num 1)) (JsValue.num 2) [] :=
  ⟨by decide,
    (c9 2 none (PfxOpt.fixed []) (fun _ => "") "warn" 1 (by decide)).1,
    (c9 2 none (PfxOpt.fixed []) (fun _ => "") "warn" 1 (by decide)).2.1,
    (c9 2 none (PfxOpt.fixed []) (fun _ => "") "warn" 1 (by decide)).2.2 (JsValue.num 2) []⟩

/-- Claim C4: print and eprint format their arguments through the format
callable, write the result with exactly one appended newline to the primary
and error stream respectively, never invoke the prelog or prefix callables,
and are unaffected by the configured threshold. -/
theorem c4 (cfg : LoggerCfg) (args : List Arg) :
    Logger.print cfg args
      = { writes := [(Dest.primary, cfg.formatFn args ++ "\n")],
          prelogCalls := 0, pfxCalls := 0, formatCalls := 1 }
    ∧ Logger.eprint cfg args
      = { writes := [(Dest.errstream, cfg.formatFn args ++ "\n")],
          prelogCalls := 0, pfxCalls := 0, formatCalls := 1 }
    ∧ (∀ t : JsValue,
        Logger.print (loggerSetLogLevel cfg t) args = Logger.print cfg args
        ∧ Logger.eprint (loggerSetLogLevel cfg t) args = Logger.eprint cfg args) :=
  ⟨rfl, rfl, fun _ => ⟨rfl, rfl⟩⟩

/-- Claim C3: constructing a Logger fails exactly when a configured stream
is not writable, and then with an ArgumentError naming the offending option
(opts.stdout is checked first); with two writable streams construction
succeeds, and every other modelled core operation is a total function, so
this check is the only raising operation. -/
theorem c3 (so se : StreamOpt) :
    (Logger.construct so se = Except.ok () ↔ (so.writable = true ∧ se.writable = true))
    ∧ (so.writable = false →
        Logger.construct so se
          = Except.error (LoggerError.argumentError "Argument opts.stdout is not a writeable stream"))
    ∧ (so.writable = true → se.writable = false →
        Logger.construct so se
          = Except.error (LoggerError.argumentError "Argument opts.stderr is not a writeable stream")) := by
  rcases so with ⟨w1⟩
  rcases se with ⟨w2⟩
  cases w1 <;> cases w2 <;>
    refine ⟨?_, ?_, ?_⟩ <;>
    simp [Logger.construct, checkWriteStream, Bind.bind, Except.bind]

/-- Witness for c3: an unwritable stdout option fails naming opts.stdout;
two writable streams construct successfully. -/
theorem c3_witness :
    ((Logger.construct ⟨false⟩ ⟨true⟩
        = Except.error (LoggerError.argumentError "Argument opts.stdout is not a writeable stream"))
      ∧ (Logger.construct ⟨true⟩ ⟨true⟩ = Except.ok ()
          ↔ ((true : Bool) = true ∧ (true : Bool) = true))) :=
  ⟨(c3 ⟨false⟩ ⟨true⟩).2.1 rfl, (c3 ⟨true⟩ ⟨true⟩).1⟩

/-- The key throwing names no style slot at any level. -/
lemma throwing_not_slot (level : String) : "throwing" ∉ stylesSlots level := by
  unfold stylesSlots
  split_ifs <;> decide

/-- A single-entry throwing object maps to itself while no error has been
rendered yet. -/
lemma frag_objMap (styler : Styler) (level : String) (v : JVal) :
    Defaults.objMap styler level false [("throwing", v)] = Arg.obj [("throwing", v)] := by
  cases v <;> simp [Defaults.objMap, throwing_not_slot]

/-- A single-entry throwing object placed before any error survives the map
of Defaults.prelog unchanged. -/
lemma mem_prelogGo_frag (styler : Styler) (level : String) (args0 : List Arg) (v : JVal) :
    ∀ (pre rest : List Arg), (pre.all fun a => !a.isErr) = true →
      Arg.obj [("throwing", v)]
        ∈ Defaults.prelogGo styler level args0 false (pre ++ Arg.obj [("throwing", v)] :: rest) := by
  intro pre
  induction pre with
  | nil =>
    intro rest _
    simp only [List.nil_append, Defaults.prelogGo]
    rw [frag_objMap]
    exact List.mem_cons_self _ _
  | cons a tl ih =>
    intro rest hp
    rw [List.all_cons, Bool.and_eq_true] at hp
    cases a with
    | str s =>
      simp only [List.cons_append, Defaults.prelogGo]
      exact List.mem_cons_of_mem _ (ih rest hp.2)
    | err e2 =>
      simp [Arg.isErr] at hp
    | obj es =>
      simp only [List.cons_append, Defaults.prelogGo]
      exact List.mem_cons_of_mem _ (ih rest hp.2)
    | jsNull =>
      simp only [List.cons_append, Defaults.prelogGo]
      exact List.mem_cons_of_mem _ (ih rest hp.2)
    | other t =>
      simp only [List.cons_append, Defaults.prelogGo]
      exact List.mem_cons_of_mem _ (ih rest hp.2)

/-- Claim C5: under the default pre-processing, an Error argument is
rendered with the stack suppressed exactly when some argument of the same
call carries a truthy throwing property; the skipped rendering is the single
styled name-colon-message line, the unskipped rendering appends the styled
stack text as a second line. -/
theorem c5 (styler : Styler) (level : String) (pre post : List Arg) (e : ErrInfo) :
    ((pre ++ Arg.err e :: post).any argThrowing = true →
      Arg.str (Logger.formatError styler e true)
        ∈ Defaults.prelog styler level (pre ++ Arg.err e :: post))
    ∧ ((pre ++ Arg.err e :: post).any argThrowing = false →
      Arg.str (Logger.formatError styler e false)
        ∈ Defaults.prelog styler level (pre ++ Arg.err e :: post))
    ∧ Logger.formatError styler e true
        = styler "error" "name" e.name ++ ": " ++ styler "error" "message" e.rawMessage
    ∧ Logger.formatError styler e false
        = (styler "error" "name" e.name ++ ": " ++ styler "error" "message" e.rawMessage)
          ++ "\n" ++ styler "error" "stack" e.stack := by
  refine ⟨?_, ?_, rfl, rfl⟩
  · intro hany
    have hmem := mem_prelogGo_err styler level (pre ++ Arg.err e :: post) e false pre post
    rw [hany] at hmem
    exact mem_filter_keep hmem (by simp)
  · intro hany
    have hmem := mem_prelogGo_err styler level (pre ++ Arg.err e :: post) e false pre post
    rw [hany] at hmem
    exact mem_filter_keep hmem (by simp)

/-- Witness for c5: with a throwing fragment beside the error the single
line rendering is in the output; without it the two line rendering is. -/
theorem c5_witness :
    (([Arg.obj [("throwing", JVal.vbool true)], Arg.err ⟨"Error", "boom", "st"⟩] : List Arg).any
        argThrowing = true
      ∧ Arg.str (Logger.formatError (fun _ _ t => t) ⟨"Error", "boom", "st"⟩ true)
          ∈ Defaults.prelog (fun _ _ t => t) "warn"
              [Arg.obj [("throwing", JVal.vbool true)], Arg.err ⟨"Error", "boom", "st"⟩])
    ∧ (([Arg.err ⟨"Error", "boom", "st"⟩] : List Arg).any argThrowing = false
      ∧ Arg.str (Logger.formatError (fun _ _ t => t) ⟨"Error", "boom", "st"⟩ false)
          ∈ Defaults.prelog (fun _ _ t => t) "warn" [Arg.err ⟨"Error", "boom", "st"⟩]) :=
  ⟨⟨by decide,
      (c5 (fun _ _ t => t) "warn" [Arg.obj [("throwing", JVal.vbool true)]] []
        ⟨"Error", "boom", "st"⟩).1 (by decide)⟩,
    ⟨by decide,
      (c5 (fun _ _ t => t) "warn" [] [] ⟨"Error", "boom", "st"⟩).2.1 (by decide)⟩⟩

/-- Claim C10: the stack-suppression scan covers the whole argument list
while the dropping of a throwing fragment is positional: a truthy throwing
fragment placed before the Error (with no error in front of it) still
suppresses the stack but itself passes through to the output, whereas a
throwing fragment placed after the Error is removed. -/
theorem c10 (styler : Styler) (level : String) (v : JVal) (pre mid post : List Arg)
    (e : ErrInfo) (hv : v.truthy = true)
    (hpre : (pre.all fun a => !a.isErr) = true) :
    (Arg.obj [("throwing", v)] ∈ Defaults.prelog styler level
        (pre ++ Arg.obj [("throwing", v)] :: (mid ++ Arg.err e :: post)))
    ∧ (Arg.str (Logger.formatError styler e true) ∈ Defaults.prelog styler level
        (pre ++ Arg.obj [("throwing", v)] :: (mid ++ Arg.err e :: post)))
    ∧ Defaults.prelog styler level [Arg.err e, Arg.obj [("throwing", v)]]
        = [Arg.str (Logger.formatError styler e true)] := by
  have hfrag : argThrowing (Arg.obj [("throwing", v)]) = true := by
    simp [argThrowing, List.lookup, hv]
  have hany : ((pre ++ Arg.obj [("throwing", v)] :: (mid ++ Arg.err e :: post)).any
      argThrowing) = true := by
    rw [List.any_eq_true]
    exact ⟨Arg.obj [("throwing", v)], by simp, hfrag⟩
  refine ⟨?_, ?_, ?_⟩
  · have hmem := mem_prelogGo_frag styler level
      (pre ++ Arg.obj [("throwing", v)] :: (mid ++ Arg.err e :: post)) v pre
      (mid ++ Arg.err e :: post) hpre
    exact mem_filter_keep hmem (by simp)
  · have hshape : pre ++ Arg.obj [("throwing", v)] :: (mid ++ Arg.err e :: post)
        = (pre ++ Arg.obj [("throwing", v)] :: mid) ++ Arg.err e :: post := by
      simp
    have hmem := mem_prelogGo_err styler level
      (pre ++ Arg.obj [("throwing", v)] :: (mid ++ Arg.err e :: post)) e false
      (pre ++ Arg.obj [("throwing", v)] :: mid) post
    rw [← hshape] at hmem
    rw [hany] at hmem
    exact mem_filter_keep hmem (by simp)
  · simp [Defaults.prelog, Defaults.prelogGo, Defaults.objMap, argThrowing, List.lookup, hv]

/-- Witness for c10 at a boolean throwing marker: placed before the error it
survives the output and forces the single line rendering; placed after the
error it is removed. -/
theorem c10_witness :
    (JVal.vbool true).truthy = true
    ∧ (([] : List Arg).all fun a => !a.isErr) = true
    ∧ (Arg.obj [("throwing", JVal.vbool true)] ∈ Defaults.prelog (fun _ _ t => t) "error"
        ([] ++ Arg.obj [("throwing", JVal.vbool true)] :: ([] ++ Arg.err ⟨"E", "m", "s"⟩ :: [])))
    ∧ (Arg.str (Logger.formatError (fun _ _ t => t) ⟨"E", "m", "s"⟩ true)
        ∈ Defaults.prelog (fun _ _ t => t) "error"
            ([] ++ Arg.obj [("throwing", JVal.vbool true)] :: ([] ++ Arg.err ⟨"E", "m", "s"⟩ :: [])))
    ∧ Defaults.prelog (fun _ _ t => t) "error"
        [Arg.err ⟨"E", "m", "s"⟩, Arg.obj [("throwing", JVal.vbool true)]]
      = [Arg.str (Logger.formatError (fun _ _ t => t) ⟨"E", "m", "s"⟩ true)] :=
  ⟨by decide, by decide,
    (c10 (fun _ _ t => t) "error" (JVal.vbool true) [] [] [] ⟨"E", "m", "s"⟩
      (by decide) (by decide)).1,
    (c10 (fun _ _ t => t) "error" (JVal.vbool true) [] [] [] ⟨"E", "m", "s"⟩
      (by decide) (by decide)).2.1,
    (c10 (fun _ _ t => t) "error" (JVal.vbool true) [] [] [] ⟨"E", "m", "s"⟩
      (by decide) (by decide)).2.2⟩

end QualeUtil
